import Mathlib

/-!
Verification development for the quest-verification-api repository.

The definitions below are a shallow embedding of the Verification Engine in
`src/services/blockchain.ts` and of the HTTP boundary in
`src/controllers/verification.ts`.  Asynchronous ledger calls are modelled as
oracle functions supplied through environment structures; fallible calls
return `Except`; wall-clock durations are explicit natural numbers
(milliseconds); JavaScript number arithmetic on block numbers is modelled
over `ℤ` (all divisions in the source have positive divisors, where
`Math.floor` division coincides with Lean's `Int` division).
-/

namespace QuestVerification

/-! ## Configuration constants (blockchain.ts, lines 22-27 and inline literals) -/

/-- blockchain.ts line 23: `RECENT_BLOCKS = 2500`. -/
def RECENT_BLOCKS : ℕ := 2500

/-- blockchain.ts line 25: `MAX_RETRIES = 2`. -/
def MAX_RETRIES : ℕ := 2

/-- blockchain.ts line 26: `MAX_VERIFICATION_TIME = 12000` (ms). -/
def MAX_VERIFICATION_TIME : ℕ := 12000

/-- blockchain.ts line 27: `MAX_BLOCKS_TO_SCAN = 100000`. -/
def MAX_BLOCKS_TO_SCAN : ℕ := 100000

/-- blockchain.ts line 203: per-attempt query timeout of 3000 ms. -/
def QUERY_TIMEOUT_MS : ℕ := 3000

/-- blockchain.ts line 219: retry delay base of 300 ms (`300 * (retryCount + 1)`). -/
def RETRY_BASE_DELAY_MS : ℕ := 300

/-- blockchain.ts line 264: `AVERAGE_BLOCK_TIME = 2.5` seconds, as the exact
rational 5/2. -/
def AVERAGE_BLOCK_TIME : ℚ := 5 / 2

/-! ## Block-Date Approximator (blockchain.ts `getApproximateBlockForDate`, lines 241-275)

`currentBlock` and `currentTimestamp` are the head block number and its
timestamp (seconds); `targetTimestamp` is `Math.floor(targetDate.getTime() / 1000)`.
The source computes `Math.floor(timestampDiff / 2.5)` in floating point; for
integer `timestampDiff` this equals the exact `2 * timestampDiff / 5`
(the quotient has denominator 5, so no double rounding can cross an integer).
`Math.max(1, currentBlock - estimatedBlocksBack)` coincides with the
truncated ℕ subtraction composed with `max 1`. -/

def getApproximateBlockForDate
    (currentBlock currentTimestamp targetTimestamp : ℕ) : ℕ :=
  -- line 259: `if (targetTimestamp >= currentTimestamp) return currentBlock;`
  if currentTimestamp ≤ targetTimestamp then currentBlock
  else
    -- lines 265-266: `timestampDiff = currentTimestamp - targetTimestamp;`
    -- `estimatedBlocksBack = Math.floor(timestampDiff / AVERAGE_BLOCK_TIME);`
    let timestampDiff := currentTimestamp - targetTimestamp
    let estimatedBlocksBack := 2 * timestampDiff / 5
    -- line 269: `Math.max(1, currentBlock - estimatedBlocksBack)`
    max 1 (currentBlock - estimatedBlocksBack)

/-! ## Retry/Timeout Orchestrator (blockchain.ts `queryWithRetry`, lines 191-235)

One ledger attempt is described by how long the node takes to settle the
`queryFilter` promise and with what outcome (`.error ()` covers a rejected
promise).  Line 202-209 races the query against a 3000 ms timer: if the
query has not settled strictly before the timer fires, the attempt yields
the timeout rejection.  A log entry is abstracted to a tag in `ℕ`. -/

deriving instance DecidableEq for Except

structure Attempt where
  durationMs : ℕ
  outcome : Except Unit (List ℕ)
deriving DecidableEq

/-- Result of racing one attempt against the 3000 ms timer (lines 202-209). -/
def attemptResult (a : Attempt) : Except Unit (List ℕ) :=
  if QUERY_TIMEOUT_MS ≤ a.durationMs then .error () else a.outcome

/-- Observable trace of `queryWithRetry`: the returned logs and the sequence
of inter-attempt delays (line 219: `300 * (retryCount + 1)` ms). -/
structure RetryTrace where
  logs : List ℕ
  delaysMs : List ℕ
deriving DecidableEq

/-- blockchain.ts lines 191-235.  `attempts i` is the ledger's behaviour on
the attempt with `retryCount = i`.  A failed or timed-out attempt with
`retryCount < MAX_RETRIES` sleeps `300 * (retryCount + 1)` ms and recurses
with `retryCount + 1` (lines 211-228); once retries are exhausted the
function returns `[]` (line 233). -/
def queryWithRetry (attempts : ℕ → Attempt) (retryCount : ℕ) : RetryTrace :=
  match attemptResult (attempts retryCount) with
  | .ok logs => ⟨logs, []⟩
  | .error _ =>
    if _h : retryCount < MAX_RETRIES then
      let rest := queryWithRetry attempts (retryCount + 1)
      ⟨rest.logs, RETRY_BASE_DELAY_MS * (retryCount + 1) :: rest.delaysMs⟩
    else ⟨[], []⟩
termination_by MAX_RETRIES - retryCount
decreasing_by omega

/-! ## Direct-Interaction Checker
(blockchain.ts `checkDirectTransactionInteractions`, lines 281-407)

The ledger is abstracted to the three provider calls the function makes for
a fixed address and contract: `getTransactionCount(address, block)` and
`getLogs` with the address as Transfer sender resp. recipient over a block
range.  `.error` models a rejected provider promise. -/

structure DirectOracle where
  txCountAt : ℤ → Except Unit ℕ
  sentLogs : ℤ → ℤ → Except Unit (List ℕ)
  recvLogs : ℤ → ℤ → Except Unit (List ℕ)

/-- blockchain.ts lines 315-335: the three prioritized sub-ranges — most
recent third first, then the middle third, then the earliest third. -/
def transferRanges (startBlock endBlock : ℤ) : List (ℤ × ℤ) :=
  let totalBlocks := endBlock - startBlock
  let thirdSize := totalBlocks / 3
  [(endBlock - thirdSize, endBlock),
   (startBlock + thirdSize, endBlock - thirdSize),
   (startBlock, startBlock + thirdSize)]

/-- blockchain.ts lines 338-389: the per-range loop.  Each range first
queries the address as sender, then as recipient, returning `true` on the
first non-empty result; a rejected `getLogs` call is swallowed by the
per-range `catch` (line 377) and the loop moves on.  Falling off the end of
the loop reaches line 389: the count delta alone is treated as proof, so
the branch returns `true`. -/
def rangeLoop (o : DirectOracle) : List (ℤ × ℤ) → Bool
  | [] => true
  | (f, t) :: rest =>
    match o.sentLogs f t with
    | .error _ => rangeLoop o rest
    | .ok sl =>
      if !sl.isEmpty then true
      else
        match o.recvLogs f t with
        | .error _ => rangeLoop o rest
        | .ok rl => if !rl.isEmpty then true else rangeLoop o rest

/-- blockchain.ts lines 281-407.  Reads the cumulative transaction count at
`endBlock` then at `startBlock` (lines 298-305); a rejected count read is
caught at line 395 and control reaches `return false` (line 402).  If the
count did not increase the function logs and returns `false`; otherwise it
runs the sub-range loop, every path of which returns `true`. -/
def checkDirectTransactionInteractions
    (o : DirectOracle) (startBlock endBlock : ℤ) : Bool :=
  match o.txCountAt endBlock with
  | .error _ => false
  | .ok addressTxCount =>
    match o.txCountAt startBlock with
    | .error _ => false
    | .ok addressTxCountStart =>
      if addressTxCountStart < addressTxCount then
        rangeLoop o (transferRanges startBlock endBlock)
      else false

/-! ## Activity Scanner (blockchain.ts `checkActivityFast`, lines 412-656)

Environment of a successfully initialized provider/contract pair, for a
fixed address.  `qSent`/`qRecv` are the (total) results of
`queryWithRetry` with the `Transfer(address, *)` resp. `Transfer(*, address)`
filter over a range — total because `queryWithRetry` never propagates a
failure.  `clock k` is the value of `performance.now()` at the k-th
loop-guard evaluation, and `t0` is its value at function entry (the outer
`rangeStart` of line 422). -/

structure ScanEnv where
  currentBlock : ℤ
  direct : DirectOracle
  qSent : ℤ → ℤ → List ℕ
  qRecv : ℤ → ℤ → List ℕ
  clock : ℕ → ℤ
  t0 : ℤ

/-- blockchain.ts lines 497-516: 21 evenly spaced sample points plus 10
points over the middle 50% of the window. -/
def samplingPoints (startBlock totalBlocksToCheck : ℤ) : List ℤ :=
  let pts20 := (List.range 21).map
    (fun i => startBlock + (i * totalBlocksToCheck) / 20)
  let midRangeStart := startBlock + totalBlocksToCheck / 4
  let midRangeEnd := startBlock + 3 * totalBlocksToCheck / 4
  let pts10 := (List.range 10).map
    (fun i => midRangeStart + (i * (midRangeEnd - midRangeStart)) / 10)
  pts20 ++ pts10

/-- blockchain.ts lines 562-602: after the sampling loop, one wider check
centered on the window midpoint, then `return false`. -/
def finalMiddleCheck (env : ScanEnv)
    (startBlock endBlock totalBlocksToCheck : ℤ) : Bool :=
  let midPoint := startBlock + totalBlocksToCheck / 2
  let midRangeStart := max startBlock (midPoint - 5000)
  let midRangeEnd := min endBlock (midPoint + 5000)
  !(env.qSent midRangeStart midRangeEnd).isEmpty ||
    !(env.qRecv midRangeStart midRangeEnd).isEmpty

/-- blockchain.ts lines 519-560: the strategic-sampling loop.  Each point is
scanned over `[max(startBlock, point - 2000), min(endBlock, point + 2000)]`.
After a miss, line 552 evaluates
`performance.now() - rangeStart > MAX_VERIFICATION_TIME`; the `rangeStart`
in scope there is the `const rangeStart` declared at line 520 — the sampled
range's start BLOCK NUMBER, which shadows the `performance.now()` baseline
of line 422.  The embedding reproduces exactly that comparison. -/
def sampleLoop (env : ScanEnv)
    (startBlock endBlock totalBlocksToCheck : ℤ) :
    List ℤ → ℕ → Bool
  | [], _ => finalMiddleCheck env startBlock endBlock totalBlocksToCheck
  | point :: rest, k =>
    let rangeStart := max startBlock (point - 2000)
    let rangeEnd := min endBlock (point + 2000)
    if !(env.qSent rangeStart rangeEnd).isEmpty ||
        !(env.qRecv rangeStart rangeEnd).isEmpty then true
    else if (MAX_VERIFICATION_TIME : ℤ) < env.clock k - rangeStart then false
    else sampleLoop env startBlock endBlock totalBlocksToCheck rest (k + 1)

/-- Modelled from the spec: §4.4 step 2 — "stop sampling and return false if
the running elapsed time exceeds the overall verification deadline".  Same
loop as `sampleLoop` but with the guard comparing the elapsed time
`performance.now() - t0` against the deadline, which is what the spec
sentence describes (and what line 552 would compute without the line-520
shadowing). -/
def specSampleLoop (env : ScanEnv)
    (startBlock endBlock totalBlocksToCheck : ℤ) :
    List ℤ → ℕ → Bool
  | [], _ => finalMiddleCheck env startBlock endBlock totalBlocksToCheck
  | point :: rest, k =>
    let rangeStart := max startBlock (point - 2000)
    let rangeEnd := min endBlock (point + 2000)
    if !(env.qSent rangeStart rangeEnd).isEmpty ||
        !(env.qRecv rangeStart rangeEnd).isEmpty then true
    else if (MAX_VERIFICATION_TIME : ℤ) < env.clock k - env.t0 then false
    else specSampleLoop env startBlock endBlock totalBlocksToCheck rest (k + 1)

/-- blockchain.ts lines 603-644: the small-range batch loop
`for (let i = startBlock; i < endBlock; i += 3000)`.  Its deadline guard
(line 637) correctly uses the outer `rangeStart` time baseline (`t0`).
Falling out of the loop reaches line 651: `return false`. -/
def batchLoop (env : ScanEnv) (i endBlock : ℤ) (k : ℕ) : Bool :=
  if _h : i < endBlock then
    let batchEnd := min (i + 3000) endBlock
    if !(env.qSent i batchEnd).isEmpty || !(env.qRecv i batchEnd).isEmpty then
      true
    else if (MAX_VERIFICATION_TIME : ℤ) < env.clock k - env.t0 then false
    else batchLoop env (i + 3000) endBlock (k + 1)
  else false
termination_by (endBlock - i).toNat
decreasing_by omega

/-- blockchain.ts lines 412-656.  Clamps the window (lines 430-431), tries
the direct-interaction check (lines 434-449), then the recent-blocks check
(lines 452-485), then branches on the window size (line 490): strategic
sampling for windows above `MAX_BLOCKS_TO_SCAN`, sequential batches
otherwise. -/
def checkActivityFast (env : ScanEnv) (startBlock0 endBlock0 : ℤ) : Bool :=
  let startBlock := max 1 startBlock0
  let endBlock := min env.currentBlock endBlock0
  if checkDirectTransactionInteractions env.direct startBlock endBlock then
    true
  else
    let recentStartBlock := max (env.currentBlock - (RECENT_BLOCKS : ℤ)) startBlock
    if decide (recentStartBlock ≤ endBlock) &&
        (!(env.qSent recentStartBlock endBlock).isEmpty ||
          !(env.qRecv recentStartBlock endBlock).isEmpty) then
      true
    else
      let totalBlocksToCheck := endBlock - startBlock
      if (MAX_BLOCKS_TO_SCAN : ℤ) < totalBlocksToCheck then
        sampleLoop env startBlock endBlock totalBlocksToCheck
          (samplingPoints startBlock totalBlocksToCheck) 0
      else
        batchLoop env startBlock endBlock 0

/-! ## All-time orchestrator path (blockchain.ts `hasInteracted`, lines 835-953)

Model of the no-campaign, successfully-initialized path: cache lookup
(lines 850-861), minter short-circuit (lines 911-923), then
`checkActivityFast(contractId, addr, currentBlock - 100000, currentBlock)`
raced against the 12 s overall timer (lines 893-934).  `raceTimedOut` is
true when the timer promise settles first, in which case the race yields
`false`. -/

structure AllTimeEnv where
  scan : ScanEnv
  isMinter : Bool
  cached : Option Bool
  raceTimedOut : Bool

/-- blockchain.ts lines 835-953 (no `campaignId` supplied). -/
def hasInteracted (env : AllTimeEnv) : Bool :=
  match env.cached with
  | some v => v
  | none =>
    if env.isMinter then true
    else if env.raceTimedOut then false
    else
      checkActivityFast env.scan
        (env.scan.currentBlock - 100000) env.scan.currentBlock

/-! ## Time-range orchestrator
(blockchain.ts `hasInteractedInTimeRange`, lines 668-826)

The ledger-facing steps are abstracted to oracle fields with explicit
durations (ms): `checkMinterRole` (awaited at line 724, total — it catches
internally), the two `getApproximateBlockForDate` calls (lines 743-750,
fallible), the direct check (line 758-781, total — failures are caught and
control continues), and the activity phase raced against the overall 12 s
timer created at line 785.  Dates are ms-since-epoch naturals.  Only the
race truncates a duration; every other step is awaited in full before the
timer even exists. -/

/-- Lower-casing as in `address.toLowerCase()` (line 682). -/
def lowerStr (s : String) : String := ⟨s.data.map Char.toLower⟩

structure RangeArgs where
  address : String
  contractId : String
  campaignId : Option String
  startMs : ℕ
  endMs : ℕ

structure RangeEnv where
  cache : String → Option Bool
  getCampaign : String → Except String (Option (ℕ × ℕ))
  initContract : Except String Unit
  isMinter : Bool
  approxBlockFor : ℕ → Except String ℕ
  directResult : ℕ → ℕ → Bool
  activityResult : Bool
  tMinter : ℕ
  tApprox : ℕ
  tDirect : ℕ
  tActivity : ℕ

/-- blockchain.ts lines 687-689: the cache key is assembled from the
variables as they stand BEFORE the campaign override of lines 713-715:
`contractId _ (campaignId || "custom") _ normalizedAddress _ startDate.getTime() _ endDate.getTime()`. -/
def rangeCacheKey (a : RangeArgs) : String :=
  a.contractId ++ "_" ++ a.campaignId.getD "custom" ++ "_" ++
    lowerStr a.address ++ "_" ++ toString a.startMs ++ "_" ++ toString a.endMs

/-- blockchain.ts lines 702-716: resolve the effective date window.  With a
campaign id, a missing campaign throws `Campaign not found` (line 710) and a
failing `getCampaignConfig` (e.g. unknown contract) propagates; on success
the campaign dates override the caller-supplied ones (lines 714-715). -/
def campaignStep (env : RangeEnv) (a : RangeArgs) : Except String (ℕ × ℕ) :=
  match a.campaignId with
  | none => .ok (a.startMs, a.endMs)
  | some cid =>
    match env.getCampaign cid with
    | .error e => .error e
    | .ok none => .error ("Campaign not found: " ++ cid)
    | .ok (some w) => .ok w

/-- blockchain.ts lines 822-824: the catch block wraps and RETHROWS any
error from the try body. -/
def wrapRangeError (contractId e : String) : String :=
  "Failed to verify contract interactions in time range on " ++
    contractId ++ ": " ++ e

/-- Observable outcome of one `hasInteractedInTimeRange` call: the verdict
or thrown error, the total awaited time in ms, the cache key that was read,
and the date window actually used for verification (after any campaign
override). -/
structure RangeOutcome where
  verdict : Except String Bool
  elapsedMs : ℕ
  cacheKeyUsed : Option String
  resolvedWindowMs : Option (ℕ × ℕ)
deriving DecidableEq

/-- blockchain.ts lines 668-826.  Sequencing: argument guard (line 675,
throws unwrapped), cache-key construction and cache read (lines 687-698),
then inside the try: campaign resolution (lines 702-716), contract
initialization (lines 719-721), minter short-circuit (lines 724-737),
date-to-block conversion (lines 743-750), direct check (lines 758-781),
and only then the overall 12 s timer racing the activity check
(lines 785-803).  Any error escaping the try is rethrown wrapped
(lines 814-825). -/
def hasInteractedInTimeRange (env : RangeEnv) (a : RangeArgs) : RangeOutcome :=
  if a.address = "" ∨ a.contractId = "" then
    { verdict := .error "Address, start date, end date, and contract ID are all required"
      elapsedMs := 0, cacheKeyUsed := none, resolvedWindowMs := none }
  else
    match env.cache (rangeCacheKey a) with
    | some cached =>
      { verdict := .ok cached, elapsedMs := 0
        cacheKeyUsed := some (rangeCacheKey a), resolvedWindowMs := none }
    | none =>
      match campaignStep env a with
      | .error e =>
        { verdict := .error (wrapRangeError a.contractId e), elapsedMs := 0
          cacheKeyUsed := some (rangeCacheKey a), resolvedWindowMs := none }
      | .ok (startMs, endMs) =>
        match env.initContract with
        | .error e =>
          { verdict := .error (wrapRangeError a.contractId e), elapsedMs := 0
            cacheKeyUsed := some (rangeCacheKey a), resolvedWindowMs := some (startMs, endMs) }
        | .ok _ =>
          if env.isMinter then
            { verdict := .ok true, elapsedMs := env.tMinter
              cacheKeyUsed := some (rangeCacheKey a), resolvedWindowMs := some (startMs, endMs) }
          else
            match env.approxBlockFor startMs with
            | .error e =>
              { verdict := .error (wrapRangeError a.contractId e)
                elapsedMs := env.tMinter + env.tApprox
                cacheKeyUsed := some (rangeCacheKey a), resolvedWindowMs := some (startMs, endMs) }
            | .ok startBlock =>
              match env.approxBlockFor endMs with
              | .error e =>
                { verdict := .error (wrapRangeError a.contractId e)
                  elapsedMs := env.tMinter + 2 * env.tApprox
                  cacheKeyUsed := some (rangeCacheKey a), resolvedWindowMs := some (startMs, endMs) }
              | .ok endBlock =>
                if env.directResult startBlock endBlock then
                  { verdict := .ok true
                    elapsedMs := env.tMinter + 2 * env.tApprox + env.tDirect
                    cacheKeyUsed := some (rangeCacheKey a), resolvedWindowMs := some (startMs, endMs) }
                else
                  -- lines 785-803: race of the activity check against the
                  -- 12 s timer; the timer wins exactly when the activity
                  -- check takes longer than the deadline.
                  { verdict := .ok (if env.tActivity ≤ MAX_VERIFICATION_TIME
                      then env.activityResult else false)
                    elapsedMs := env.tMinter + 2 * env.tApprox + env.tDirect +
                      min env.tActivity MAX_VERIFICATION_TIME
                    cacheKeyUsed := some (rangeCacheKey a), resolvedWindowMs := some (startMs, endMs) }

/-- True when an `Except` result is a thrown error. -/
def isThrown {α : Type} : Except String α → Bool
  | .error _ => true
  | .ok _ => false

/-- Flat characterization of when `hasInteractedInTimeRange` throws on a
cache miss: a campaign-resolution failure, a contract-initialization
failure, or (for a non-minter) a date-to-block conversion failure.  All
later steps absorb their failures into a boolean verdict. -/
def rangeFailsBeforeVerdict (env : RangeEnv) (a : RangeArgs) : Bool :=
  match campaignStep env a with
  | .error _ => true
  | .ok (startMs, endMs) =>
    match env.initContract with
    | .error _ => true
    | .ok _ =>
      if env.isMinter then false
      else
        match env.approxBlockFor startMs with
        | .error _ => true
        | .ok _ => isThrown (env.approxBlockFor endMs)

/-! ## HTTP boundary (controllers/verification.ts)

Responses are a status code plus a body shape: the verify endpoints emit
either `{ result: r }` (line 80 / 178 / 263) or an object carrying both a
`result: 0` and an `error` message (the 400 validation bodies and the 500
catch bodies of lines 87 and 273). -/

inductive RespBody where
  | resultOnly (result : ℕ)
  | resultWithErr (result : ℕ) (msg : String)
deriving DecidableEq

structure HttpResponse where
  status : ℕ
  body : RespBody
deriving DecidableEq

def isHexDigitChar (c : Char) : Bool :=
  c.isDigit || ('a' ≤ c && c ≤ 'f') || ('A' ≤ c && c ≤ 'F')

/-- controllers/verification.ts lines 417-419: `/^0x[a-fA-F0-9]{40}$/`. -/
def isValidAddress (s : String) : Bool :=
  s.length == 42 && s.data.take 2 == ['0', 'x'] &&
    (s.data.drop 2).all isHexDigitChar

structure VerifyReq where
  address : String
  contract : Option String
  campaign : Option String

/-- controllers/verification.ts `verifyInteraction`, lines 22-89.  The
engine call is abstracted as `engine normalizedAddress contractId campaignId`;
a thrown engine error reaches the catch block of lines 81-88, which responds
`res.status(500).json({ result: 0, error: error.message })`. -/
def verifyInteraction
    (engine : String → String → Option String → Except String Bool)
    (req : VerifyReq) : HttpResponse :=
  if req.address = "" then
    ⟨400, .resultWithErr 0 "Address is required"⟩
  else
    match req.contract with
    | none =>
      ⟨400, .resultWithErr 0 "Contract ID is required. Please specify the contract query parameter."⟩
    | some contractId =>
      if !isValidAddress req.address then
        ⟨400, .resultWithErr 0 "Invalid Ethereum address format"⟩
      else
        match engine (lowerStr req.address) contractId req.campaign with
        | .ok b => ⟨200, .resultOnly (if b then 1 else 0)⟩
        | .error m => ⟨500, .resultWithErr 0 m⟩

structure RangeReq where
  address : String
  contract : Option String
  campaign : Option String
  startDateRaw : Option String
  endDateRaw : Option String

/-- Collaborators of `verifyInteractionInTimeRange`: JS `Date` parsing
(`none` models an invalid date / `NaN`), the local-time end-of-day
adjustment of line 226, the campaign lookup, and the engine.  Dates are
ms-since-epoch integers. -/
structure RangeBoundaryEnv where
  parseDate : String → Option ℤ
  adjustEndOfDay : ℤ → ℤ
  getCampaign : String → String → Except String (Option (ℤ × ℤ))
  engine : String → ℤ → ℤ → String → Except String Bool

/-- controllers/verification.ts `verifyInteractionInTimeRange`,
lines 98-275.  In the campaign branch the inner try/catch of lines 139-193
turns ANY failure (campaign lookup or engine) into a 400
`Invalid campaign configuration` response; in the custom-range branch an
engine failure reaches the outer catch (lines 264-274), which responds
`res.status(500).json({ result: 0, error: error.message })`. -/
def verifyInteractionInTimeRange
    (env : RangeBoundaryEnv) (req : RangeReq) : HttpResponse :=
  if req.address = "" then
    ⟨400, .resultWithErr 0 "Address is required"⟩
  else
    match req.contract with
    | none =>
      ⟨400, .resultWithErr 0 "Contract ID is required. Please specify the contract query parameter."⟩
    | some contractId =>
      if !isValidAddress req.address then
        ⟨400, .resultWithErr 0 "Invalid Ethereum address format"⟩
      else
        match req.campaign with
        | some cid =>
          -- lines 138-194: campaign branch, all failures become 400
          (match env.getCampaign contractId cid with
          | .error e =>
            ⟨400, .resultWithErr 0 ("Invalid campaign configuration: " ++ e)⟩
          | .ok none =>
            ⟨400, .resultWithErr 0 ("Campaign not found: " ++ cid)⟩
          | .ok (some (cs, ce)) =>
            match env.engine (lowerStr req.address) cs ce contractId with
            | .ok b => ⟨200, .resultOnly (if b then 1 else 0)⟩
            | .error e =>
              ⟨400, .resultWithErr 0 ("Invalid campaign configuration: " ++ e)⟩)
        | none =>
          -- lines 196-263: custom-range branch
          match req.startDateRaw, req.endDateRaw with
          | some sRaw, some eRaw =>
            (match env.parseDate sRaw, env.parseDate eRaw with
            | some sMs, some eMs0 =>
              let eMs := if eRaw.length ≤ 10 then env.adjustEndOfDay eMs0 else eMs0
              if eMs < sMs then
                ⟨400, .resultWithErr 0 "startDate must be before endDate"⟩
              else
                match env.engine (lowerStr req.address) sMs eMs contractId with
                | .ok b => ⟨200, .resultOnly (if b then 1 else 0)⟩
                | .error m => ⟨500, .resultWithErr 0 m⟩
            | _, _ =>
              ⟨400, .resultWithErr 0 "Invalid date format. Use ISO format."⟩)
          | _, _ =>
            ⟨400, .resultWithErr 0 "Both startDate and endDate query parameters are required when no campaign is specified"⟩

/-! ## Decimal-representation helpers

Used to reason about the cache-key strings of the orchestrator: the decimal
digits emitted by `Nat.repr` never contain the `_` separator, and the
representation is injective. -/

def digitVal (c : Char) : ℕ := c.toNat - '0'.toNat

def digitsVal (l : List Char) : ℕ := l.foldl (fun v c => 10 * v + digitVal c) 0

/-! ## Concrete instances used by witnesses and counterexamples -/

/-- Canonical response classification of the verify endpoints: either a
200 with a body that is exactly `{ result: 0 }` or `{ result: 1 }`, or a
400/500 whose body carries `result: 0` together with an `error` message. -/
def canonicalResp (resp : HttpResponse) : Prop :=
  (resp.status = 200 ∧ (resp.body = .resultOnly 0 ∨ resp.body = .resultOnly 1)) ∨
    ((resp.status = 400 ∨ resp.status = 500) ∧ ∃ m, resp.body = .resultWithErr 0 m)

/-- A direct oracle whose log queries always reject or return nothing. -/
def dummyDirectOracle : DirectOracle :=
  { txCountAt := fun _ => .ok 0
    sentLogs := fun _ _ => .ok []
    recvLogs := fun _ _ => .ok [] }

/-- Scan environment for the sampling-loop guard analysis: the verification
started at `t0 = 0` and `performance.now()` reads 13000 ms at every guard
(elapsed 13 s, past the 12 s deadline); logs exist only in the sampled range
starting at block 1048000. -/
def envC6 : ScanEnv :=
  { currentBlock := 1300000
    direct := dummyDirectOracle
    qSent := fun a _ => if a = 1048000 then [3] else []
    qRecv := fun _ _ => []
    clock := fun _ => 13000
    t0 := 0 }

/-- All-time environment whose only ledger activity for the address is a
Transfer log and one transaction at block 5, with head block 200001 — the
interaction lies more than 100000 blocks before the head. -/
def envOldInteraction : AllTimeEnv :=
  { scan :=
      { currentBlock := 200001
        direct :=
          { txCountAt := fun b => .ok (if 5 ≤ b then 1 else 0)
            sentLogs := fun a b => .ok (if a ≤ 5 ∧ 5 ≤ b then [7] else [])
            recvLogs := fun _ _ => .ok [] }
        qSent := fun a b => if a ≤ 5 ∧ 5 ≤ b then [7] else []
        qRecv := fun _ _ => []
        clock := fun _ => 0
        t0 := 0 }
    isMinter := false
    cached := none
    raceTimedOut := false }

def stallArgs : RangeArgs :=
  { address := "0xabc", contractId := "contract1", campaignId := none
    startMs := 100, endMs := 200 }

/-- A non-privileged, cache-missing environment in which every awaited
ledger step takes `t` milliseconds (a stalled node is the limit t → ∞). -/
def stallRangeEnv (t : ℕ) : RangeEnv :=
  { cache := fun _ => none
    getCampaign := fun _ => .ok none
    initContract := .ok ()
    isMinter := false
    approxBlockFor := fun _ => .ok 1
    directResult := fun _ _ => false
    activityResult := false
    tMinter := t, tApprox := t, tDirect := t, tActivity := t }

def argsUnknownCampaign : RangeArgs :=
  { address := "0xabc", contractId := "contract1", campaignId := some "ghost"
    startMs := 100, endMs := 200 }

/-- Environment in which the requested campaign id is unknown
(`getCampaignConfig` returns undefined). -/
def envUnknownCampaign : RangeEnv :=
  { cache := fun _ => none
    getCampaign := fun _ => .ok none
    initContract := .ok ()
    isMinter := false
    approxBlockFor := fun _ => .ok 1
    directResult := fun _ _ => false
    activityResult := false
    tMinter := 0, tApprox := 0, tDirect := 0, tActivity := 0 }

/-- Environment with one configured campaign `camp1` whose window is
`[5000, 9000]` ms. -/
def envCampaignWindow : RangeEnv :=
  { cache := fun _ => none
    getCampaign := fun cid => if cid = "camp1" then .ok (some (5000, 9000)) else .ok none
    initContract := .ok ()
    isMinter := false
    approxBlockFor := fun _ => .ok 1
    directResult := fun _ _ => false
    activityResult := false
    tMinter := 0, tApprox := 0, tDirect := 0, tActivity := 0 }

def argsCampaignA : RangeArgs :=
  { address := "0xAb", contractId := "contract1", campaignId := some "camp1"
    startMs := 100, endMs := 200 }

def argsCampaignB : RangeArgs :=
  { address := "0xAb", contractId := "contract1", campaignId := some "camp1"
    startMs := 300, endMs := 200 }

/-- Oracle with a transaction-count delta (1 at the window start, 3 at its
end) and not a single matching Transfer log anywhere. -/
def oracleCountDelta : DirectOracle :=
  { txCountAt := fun b => if b = 0 then .ok 1 else .ok 3
    sentLogs := fun _ _ => .ok []
    recvLogs := fun _ _ => .ok [] }

/-- Ledger behaviour whose every attempt settles only after 5000 ms
(longer than the 3000 ms per-call timeout). -/
def attemptsAllFail : ℕ → Attempt := fun _ => ⟨5000, .ok [9]⟩

def failEngine : String → String → Option String → Except String Bool :=
  fun _ _ _ => .error "boom"

def goodVerifyReq : VerifyReq :=
  { address := "0x1234567890123456789012345678901234567890"
    contract := some "contract1", campaign := none }

end QuestVerification

namespace QuestVerification

/-! ## Helper lemmas -/

theorem floorDivAvgBlockTime (d : ℕ) :
    (⌊(d : ℚ) / AVERAGE_BLOCK_TIME⌋).toNat = 2 * d / 5 := by
  rw [Int.floor_toNat, AVERAGE_BLOCK_TIME,
    show (d : ℚ) / (5 / 2) = ((2 * d : ℕ) : ℚ) / ((5 : ℕ) : ℚ) by push_cast; ring,
    Nat.floor_div_nat, Nat.floor_natCast]

/-- Every path of the sub-range loop of the count-delta branch returns
`true`: a hit returns `true` immediately, a miss or a rejected query moves
on, and the fall-through after the last range is the `return true` of
blockchain.ts line 389. -/
theorem rangeLoop_true (o : DirectOracle) (l : List (ℤ × ℤ)) :
    rangeLoop o l = true := by
  induction l with
  | nil => rfl
  | cons hd tl ih =>
    obtain ⟨f, t⟩ := hd
    unfold rangeLoop
    cases o.sentLogs f t with
    | error e => exact ih
    | ok sl =>
      by_cases hsl : sl.isEmpty
      · cases o.recvLogs f t with
        | error e => simp [hsl, ih]
        | ok rl =>
          by_cases hrl : rl.isEmpty
          · simp [hsl, hrl, ih]
          · simp [hsl, hrl]
      · simp [hsl]

/-- If no sent/received `queryWithRetry` result over any sub-range of
`[sB, eB]` is non-empty, the batch loop never hits and ends in the
`return false` of blockchain.ts line 651 (possibly early via the line 637
deadline guard, which also returns `false`). -/
theorem batchLoop_empty_false (env : ScanEnv) (sB eB : ℤ)
    (hq : ∀ a b : ℤ, sB ≤ a → b ≤ eB →
      env.qSent a b = [] ∧ env.qRecv a b = []) :
    ∀ (fuel : ℕ) (i : ℤ) (k : ℕ), (eB - i).toNat ≤ fuel → sB ≤ i →
      batchLoop env i eB k = false := by
  intro fuel
  induction fuel with
  | zero =>
    intro i k hf hi
    rw [batchLoop]
    have hlt : ¬ i < eB := by omega
    simp [hlt]
  | succ m ih =>
    intro i k hf hi
    rw [batchLoop]
    by_cases hlt : i < eB
    · have h1 := hq i (min (i + 3000) eB) hi (min_le_right _ _)
      simp only [hlt, dif_pos, h1.1, h1.2, List.isEmpty_nil, Bool.not_true,
        Bool.or_self, Bool.false_eq_true, if_false]
      split
      · rfl
      · exact ih (i + 3000) (k + 1) (by omega) (by omega)
    · simp [hlt]

/-- If no sent/received `queryWithRetry` result over any sub-range of
`[sB, eB]` is non-empty, the sampling loop never hits: every queried range
is clamped into `[sB, eB]` (blockchain.ts lines 520-521), so the loop either
returns `false` via the line 552 guard or falls through to the final middle
check (also clamped, lines 565-566) and returns `false`. -/
theorem sampleLoop_empty_false (env : ScanEnv) (sB eB tot : ℤ)
    (hq : ∀ a b : ℤ, sB ≤ a → b ≤ eB →
      env.qSent a b = [] ∧ env.qRecv a b = []) :
    ∀ (pts : List ℤ) (k : ℕ), sampleLoop env sB eB tot pts k = false := by
  intro pts
  induction pts with
  | nil =>
    intro k
    unfold sampleLoop finalMiddleCheck
    have h1 := hq (max sB (sB + tot / 2 - 5000)) (min eB (sB + tot / 2 + 5000))
      (le_max_left _ _) (min_le_left _ _)
    simp [h1.1, h1.2]
  | cons p rest ih =>
    intro k
    unfold sampleLoop
    have h1 := hq (max sB (p - 2000)) (min eB (p + 2000))
      (le_max_left _ _) (min_le_left _ _)
    simp only [h1.1, h1.2, List.isEmpty_nil, Bool.not_true, Bool.or_self,
      Bool.false_eq_true, if_false]
    split
    · rfl
    · exact ih (k + 1)

/-- A direct check over equal transaction counts returns `false`
(blockchain.ts lines 390-402). -/
theorem checkDirect_false_of_counts_eq (o : DirectOracle) (sb eb : ℤ) (n : ℕ)
    (he : o.txCountAt eb = .ok n) (hs : o.txCountAt sb = .ok n) :
    checkDirectTransactionInteractions o sb eb = false := by
  unfold checkDirectTransactionInteractions
  rw [he, hs]
  simp

/-! Decimal representation: digit characters, injectivity, no separator. -/

theorem digitChar_isDigit_of_lt10 (d : ℕ) (h : d < 10) :
    (Nat.digitChar d).isDigit = true := by
  interval_cases d <;> decide

theorem digitVal_digitChar (d : ℕ) (h : d < 10) :
    digitVal (Nat.digitChar d) = d := by
  interval_cases d <;> decide

theorem toDigitsCore_append (fuel : ℕ) : ∀ (n : ℕ) (ds : List Char),
    Nat.toDigitsCore 10 fuel n ds = Nat.toDigitsCore 10 fuel n [] ++ ds := by
  induction fuel with
  | zero => intro n ds; simp [Nat.toDigitsCore]
  | succ f ih =>
    intro n ds
    simp only [Nat.toDigitsCore]
    by_cases h : n / 10 = 0
    · simp [h]
    · simp only [h, if_false]
      rw [ih (n / 10) [Nat.digitChar (n % 10)],
        ih (n / 10) (Nat.digitChar (n % 10) :: ds), List.append_assoc]
      rfl

theorem toDigitsCore_fuel_irrel (fuel1 : ℕ) : ∀ (fuel2 n : ℕ) (ds : List Char),
    n < fuel1 → n < fuel2 →
    Nat.toDigitsCore 10 fuel1 n ds = Nat.toDigitsCore 10 fuel2 n ds := by
  induction fuel1 with
  | zero => intro fuel2 n ds h1 _; omega
  | succ f ih =>
    intro fuel2 n ds h1 h2
    cases fuel2 with
    | zero => omega
    | succ g =>
      simp only [Nat.toDigitsCore]
      by_cases h : n / 10 = 0
      · simp [h]
      · simp only [h, if_false]
        have hn : 10 ≤ n := by
          rcases Nat.lt_or_ge n 10 with hlt | hge
          · exact absurd (Nat.div_eq_of_lt hlt) h
          · exact hge
        exact ih g (n / 10) _ (by omega) (by omega)

theorem toDigits_rec (n : ℕ) (h : ¬ n / 10 = 0) :
    Nat.toDigits 10 n =
      Nat.toDigits 10 (n / 10) ++ [Nat.digitChar (n % 10)] := by
  have hn : 10 ≤ n := by
    rcases Nat.lt_or_ge n 10 with hlt | hge
    · exact absurd (Nat.div_eq_of_lt hlt) h
    · exact hge
  show Nat.toDigitsCore 10 (n + 1) n [] = _
  simp only [Nat.toDigitsCore, h, if_false]
  rw [toDigitsCore_append n (n / 10) [Nat.digitChar (n % 10)],
    toDigitsCore_fuel_irrel n (n / 10 + 1) (n / 10) []
      (by omega) (by omega)]
  rfl

theorem toDigits_small (n : ℕ) (h : n / 10 = 0) :
    Nat.toDigits 10 n = [Nat.digitChar (n % 10)] := by
  show Nat.toDigitsCore 10 (n + 1) n [] = _
  simp [Nat.toDigitsCore, h]

theorem digitsVal_concat (l : List Char) (c : Char) :
    digitsVal (l ++ [c]) = 10 * digitsVal l + digitVal c := by
  simp [digitsVal, List.foldl_append]

theorem digitsVal_toDigits (n : ℕ) : digitsVal (Nat.toDigits 10 n) = n := by
  induction n using Nat.strong_induction_on with
  | _ n ih =>
    by_cases h : n / 10 = 0
    · have hn : n < 10 := by
        rcases Nat.lt_or_ge n 10 with hlt | hge
        · exact hlt
        · rw [Nat.div_eq_zero_iff (by omega)] at h; omega
      rw [toDigits_small n h]
      simp [digitsVal, digitVal_digitChar (n % 10) (Nat.mod_lt n (by omega))]
      omega
    · rw [toDigits_rec n h, digitsVal_concat,
        ih (n / 10) (Nat.div_lt_self (by
          rcases Nat.lt_or_ge n 10 with hlt | hge
          · exact absurd (Nat.div_eq_of_lt hlt) h
          · omega) (by omega)),
        digitVal_digitChar (n % 10) (Nat.mod_lt n (by omega))]
      omega

theorem toDigits_inj (m n : ℕ) (h : Nat.toDigits 10 m = Nat.toDigits 10 n) :
    m = n := by
  have := congrArg digitsVal h
  rwa [digitsVal_toDigits, digitsVal_toDigits] at this

theorem toDigits_all_digits (n : ℕ) :
    ∀ c ∈ Nat.toDigits 10 n, c.isDigit = true := by
  induction n using Nat.strong_induction_on with
  | _ n ih =>
    by_cases h : n / 10 = 0
    · rw [toDigits_small n h]
      intro c hc
      rcases List.mem_singleton.mp hc with rfl
      exact digitChar_isDigit_of_lt10 (n % 10) (Nat.mod_lt n (by omega))
    · rw [toDigits_rec n h]
      intro c hc
      rcases List.mem_append.mp hc with hc | hc
      · exact ih (n / 10) (Nat.div_lt_self (by
          rcases Nat.lt_or_ge n 10 with hlt | hge
          · exact absurd (Nat.div_eq_of_lt hlt) h
          · omega) (by omega)) c hc
      · rcases List.mem_singleton.mp hc with rfl
        exact digitChar_isDigit_of_lt10 (n % 10) (Nat.mod_lt n (by omega))

theorem underscore_not_mem_toDigits (n : ℕ) : '_' ∉ Nat.toDigits 10 n := by
  intro hmem
  have := toDigits_all_digits n '_' hmem
  simp [Char.isDigit] at this

theorem sep_append_inj : ∀ (xs1 xs2 ys1 ys2 : List Char),
    '_' ∉ xs1 → '_' ∉ xs2 →
    xs1 ++ '_' :: ys1 = xs2 ++ '_' :: ys2 → xs1 = xs2 ∧ ys1 = ys2 := by
  intro xs1
  induction xs1 with
  | nil =>
    intro xs2 ys1 ys2 _ h2 h
    cases xs2 with
    | nil => simpa using h
    | cons b bs =>
      simp only [List.nil_append, List.cons_append, List.cons.injEq] at h
      exact absurd (show ('_' : Char) ∈ b :: bs by
        rw [← h.1]; exact List.mem_cons_self '_' bs) h2
  | cons a as ih =>
    intro xs2 ys1 ys2 h1 h2 h
    cases xs2 with
    | nil =>
      simp only [List.nil_append, List.cons_append, List.cons.injEq] at h
      exact absurd (show ('_' : Char) ∈ a :: as by
        rw [h.1]; exact List.mem_cons_self '_' as) h1
    | cons b bs =>
      simp only [List.cons_append, List.cons.injEq] at h
      obtain ⟨hab, hrest⟩ := h
      have := ih bs ys1 ys2 (fun hm => h1 (List.mem_cons_of_mem a hm))
        (fun hm => h2 (hab ▸ List.mem_cons_of_mem b hm)) hrest
      exact ⟨by rw [hab, this.1], this.2⟩

theorem natRepr_data (n : ℕ) : (toString n).data = Nat.toDigits 10 n := rfl

/-- The cache key determines the caller-supplied dates: two keys built from
the same contract, campaign and address but different `getTime()` values are
distinct strings (the date fields are decimal digit runs between `_`
separators). -/
theorem rangeCacheKey_inj_dates (a1 a2 : RangeArgs)
    (hcon : a1.contractId = a2.contractId)
    (hcam : a1.campaignId = a2.campaignId)
    (haddr : a1.address = a2.address)
    (hkey : rangeCacheKey a1 = rangeCacheKey a2) :
    a1.startMs = a2.startMs ∧ a1.endMs = a2.endMs := by
  unfold rangeCacheKey at hkey
  rw [hcon, hcam, haddr] at hkey
  have hd := congrArg String.data hkey
  simp only [String.data_append, List.append_assoc, List.singleton_append,
    show ("_" : String).data = ['_'] from rfl] at hd
  have e1 := List.append_cancel_left hd
  injection e1 with _ e2
  have e3 := List.append_cancel_left e2
  injection e3 with _ e4
  have e5 := List.append_cancel_left e4
  injection e5 with _ e6
  rw [natRepr_data, natRepr_data, natRepr_data, natRepr_data] at e6
  have := sep_append_inj _ _ _ _
    (underscore_not_mem_toDigits a1.startMs)
    (underscore_not_mem_toDigits a2.startMs) e6
  exact ⟨toDigits_inj _ _ this.1, toDigits_inj _ _ this.2⟩

/-! ## Claim theorems -/

/-- C7: the arithmetic Block-Date Approximator returns the head block when
the target timestamp is at least the head timestamp, and otherwise the head
block minus `floor((headTimestamp - targetTimestamp) / averageBlockInterval)`
(interval 2.5 s), floored at block 1.  (`cts - tts` is ℕ subtraction; in the
branch where it is used, `tts < cts`, so it is the true difference.) -/
theorem approximator_matches_arithmetic_spec (cb cts tts : ℕ) :
    getApproximateBlockForDate cb cts tts =
      if cts ≤ tts then cb
      else max 1 (cb - (⌊((cts - tts : ℕ) : ℚ) / AVERAGE_BLOCK_TIME⌋).toNat) := by
  unfold getApproximateBlockForDate
  by_cases h : cts ≤ tts
  · simp [h]
  · simp [h, floorDivAvgBlockTime]

/-- C8 counterexample: two distinct timestamps (998 and 999, both below the
head timestamp 1000) map to the SAME block under head block 100, so a later
timestamp does not always map to a strictly later block. -/
theorem approximator_equal_blocks_for_distinct_timestamps :
    ¬ (getApproximateBlockForDate 100 1000 998 <
        getApproximateBlockForDate 100 1000 999) := by decide

/-- C8 (amended): the Block-Date Approximator is monotone — against the same
head block (≥ 1) and head timestamp, a later timestamp never maps to an
EARLIER block, though it may map to an equal one. -/
theorem approximator_monotone
    (cb cts t1 t2 : ℕ) (hcb : 1 ≤ cb) (h12 : t1 ≤ t2) :
    getApproximateBlockForDate cb cts t1 ≤ getApproximateBlockForDate cb cts t2 := by
  unfold getApproximateBlockForDate
  by_cases h1 : cts ≤ t1
  · simp [h1, le_trans h1 h12]
  · by_cases h2 : cts ≤ t2
    · simp only [if_neg h1, if_pos h2]
      exact max_le hcb (Nat.sub_le _ _)
    · simp only [if_neg h1, if_neg h2]
      have hdiv : 2 * (cts - t2) / 5 ≤ 2 * (cts - t1) / 5 :=
        Nat.div_le_div_right (by omega)
      exact max_le_max (le_refl 1) (by omega)

/-- C8 witness: the monotonicity theorem applied at head block 100, head
timestamp 1000, timestamps 500 ≤ 600. -/
theorem approximator_monotone_witness :
    1 ≤ 100 ∧ 500 ≤ 600 ∧
      getApproximateBlockForDate 100 1000 500 ≤
        getApproximateBlockForDate 100 1000 600 :=
  ⟨by decide, by decide, approximator_monotone 100 1000 500 600 (by decide) (by decide)⟩

/-- C5: every ledger attempt is raced against the fixed 3000 ms per-call
timeout (an attempt that has not settled within it yields the timeout
rejection, whatever it would later return); failed attempts are retried with
delays `300 * attemptNumber`; and exhausting all `MAX_RETRIES` retries
returns the empty log list (with the delay sequence 300 ms, 600 ms) instead
of propagating the failure. -/
theorem queryWithRetry_bounded_and_total :
    (∀ a : Attempt, QUERY_TIMEOUT_MS ≤ a.durationMs → attemptResult a = .error ()) ∧
    (∀ attempts : ℕ → Attempt,
      (∀ i, i ≤ MAX_RETRIES → attemptResult (attempts i) = .error ()) →
      queryWithRetry attempts 0 =
        ⟨[], [RETRY_BASE_DELAY_MS * 1, RETRY_BASE_DELAY_MS * 2]⟩) := by
  constructor
  · intro a h
    unfold attemptResult
    simp [h]
  · intro attempts h
    rw [queryWithRetry, h 0 (by norm_num [MAX_RETRIES]),
      queryWithRetry, h 1 (by norm_num [MAX_RETRIES]),
      queryWithRetry, h 2 (by norm_num [MAX_RETRIES])]
    simp [MAX_RETRIES]

/-- C5 witness: a ledger that always settles after 5000 ms exhausts all
retries and yields the empty list with delays 300 ms and 600 ms. -/
theorem queryWithRetry_exhaustion_witness :
    queryWithRetry attemptsAllFail 0 =
      ⟨[], [RETRY_BASE_DELAY_MS * 1, RETRY_BASE_DELAY_MS * 2]⟩ :=
  queryWithRetry_bounded_and_total.2 attemptsAllFail (fun _ _ => rfl)

/-- C4: whenever the address's transaction count at `endBlock` exceeds the
count at `startBlock`, the Direct-Interaction Checker returns `true` — for
EVERY behaviour of the three prioritized sub-range log queries, including
all-empty and all-rejected; and (given that the cumulative count is
monotone, `cs ≤ ce`) it returns `false` only when the two counts are
equal. -/
theorem checkDirect_count_delta_decides (o : DirectOracle) (sb eb : ℤ)
    (ce cs : ℕ)
    (he : o.txCountAt eb = .ok ce) (hs : o.txCountAt sb = .ok cs)
    (hmono : cs ≤ ce) :
    (cs < ce → checkDirectTransactionInteractions o sb eb = true) ∧
    (checkDirectTransactionInteractions o sb eb = false → ce = cs) := by
  unfold checkDirectTransactionInteractions
  rw [he, hs]
  constructor
  · intro hlt
    simp [hlt, rangeLoop_true]
  · intro hfalse
    by_cases hlt : cs < ce
    · simp [hlt, rangeLoop_true] at hfalse
    · omega

/-- C4 witness: counts 1 → 3 over window [0, 900] with not a single
matching log anywhere still verifies. -/
theorem checkDirect_count_delta_witness :
    (1 : ℕ) < 3 ∧
      checkDirectTransactionInteractions oracleCountDelta 0 900 = true :=
  ⟨by decide,
    (checkDirect_count_delta_decides oracleCountDelta 0 900 3 1
      (by decide) (by decide) (by decide)).1 (by decide)⟩

/-- C6 (code bug, blockchain.ts line 552 vs line 520): in the
strategic-sampling loop the deadline guard compares `performance.now()`
against the sampled range's start BLOCK NUMBER (the inner `const rangeStart`
shadows the outer time baseline of line 422), not against the verification
start time.  Concretely: the verification started at `t0 = 0` and the clock
reads 13000 ms (elapsed 13 s > 12 s deadline) after the first sample point,
yet the code keeps sampling and returns `true` from the second point, while
the loop with the spec's elapsed-time guard stops and returns `false`. -/
theorem samplingGuard_shadowed_ignores_elapsed_time :
    sampleLoop envC6 1000000 1200000 200000 [1000000, 1050000] 0 = true ∧
    specSampleLoop envC6 1000000 1200000 200000 [1000000, 1050000] 0 = false ∧
    (MAX_VERIFICATION_TIME : ℤ) < envC6.clock 0 - envC6.t0 := by
  refine ⟨by decide, by decide, by decide⟩

/-- C9: on a cache miss for a non-privileged address and without a campaign
id, `hasInteracted` scans only the window
`[max(1, head - 100000), head]`: if the ledger reports no transaction-count
change across that window and no Transfer logs inside any of its sub-ranges,
the verdict is `false` — regardless of any interaction recorded at blocks
more than 100000 below the head (the environment is unconstrained there). -/
theorem hasInteracted_scans_last_100000_blocks_only (env : AllTimeEnv) (n : ℕ)
    (hcache : env.cached = none)
    (hminter : env.isMinter = false)
    (hce : env.scan.direct.txCountAt env.scan.currentBlock = .ok n)
    (hcs : env.scan.direct.txCountAt
      (max 1 (env.scan.currentBlock - 100000)) = .ok n)
    (hq : ∀ a b : ℤ, max 1 (env.scan.currentBlock - 100000) ≤ a →
      b ≤ env.scan.currentBlock →
      env.scan.qSent a b = [] ∧ env.scan.qRecv a b = []) :
    hasInteracted env = false := by
  unfold hasInteracted
  rw [hcache, hminter]
  cases htimeout : env.raceTimedOut with
  | true => simp
  | false =>
    simp only [if_false, Bool.false_eq_true]
    unfold checkActivityFast
    have hdirect := checkDirect_false_of_counts_eq env.scan.direct
      (max 1 (env.scan.currentBlock - 100000)) env.scan.currentBlock n hce hcs
    have hrec := hq
      (max (env.scan.currentBlock - (RECENT_BLOCKS : ℤ))
        (max 1 (env.scan.currentBlock - 100000)))
      env.scan.currentBlock (le_max_right _ _) (le_refl _)
    have hsize : ¬ ((MAX_BLOCKS_TO_SCAN : ℤ) <
        env.scan.currentBlock - max 1 (env.scan.currentBlock - 100000)) := by
      simp only [MAX_BLOCKS_TO_SCAN]
      push_cast
      omega
    simp only [min_self, hdirect, hrec.1, hrec.2, List.isEmpty_nil,
      Bool.not_true, Bool.or_self, Bool.and_false, Bool.false_eq_true,
      if_false]
    rw [if_neg hsize]
    exact batchLoop_empty_false env.scan _ _ hq
      (env.scan.currentBlock - max 1 (env.scan.currentBlock - 100000)).toNat
      _ 0 (le_refl _) (le_refl _)

/-- C9 witness: an address whose only activity (one transaction and one
Transfer log) sits at block 5, with head block 200001 — an interaction
100000+ blocks before the head — verifies as `false` on the all-time
path. -/
theorem hasInteracted_old_interaction_witness :
    hasInteracted envOldInteraction = false := by
  apply hasInteracted_scans_last_100000_blocks_only envOldInteraction 1 rfl rfl
  · decide
  · decide
  · intro a b ha hb
    have h100 : (100001 : ℤ) ≤ a :=
      le_trans (by norm_num [envOldInteraction]) ha
    have ha5 : ¬ (a ≤ 5) := by omega
    constructor
    · simp [envOldInteraction, ha5]
    · rfl

/-- C1 counterexample: an unknown campaign id — one of the claim's own
examples of a verification-internal failure — makes the engine entry point
`hasInteractedInTimeRange` THROW (the catch of blockchain.ts lines 814-825
rethrows a wrapped error) instead of returning the boolean `false`. -/
theorem rangeVerify_throws_on_unknown_campaign :
    isThrown (hasInteractedInTimeRange envUnknownCampaign
      argsUnknownCampaign).verdict = true := by decide

/-- C1 (amended): on a cache miss the engine entry point rethrows exactly
the failures of its pre-verdict phase — campaign resolution, contract
initialization, and (for non-privileged addresses) date-to-block
conversion — as wrapped errors, while every later failure (direct check,
activity scan, overall deadline) is absorbed into a boolean verdict. -/
theorem rangeVerify_throw_characterization (env : RangeEnv) (a : RangeArgs)
    (ha : a.address ≠ "") (hc : a.contractId ≠ "")
    (hmiss : env.cache (rangeCacheKey a) = none) :
    isThrown (hasInteractedInTimeRange env a).verdict =
      rangeFailsBeforeVerdict env a := by
  unfold hasInteractedInTimeRange rangeFailsBeforeVerdict
  have hguard : ¬ (a.address = "" ∨ a.contractId = "") := by tauto
  rw [if_neg hguard, hmiss]
  cases hcs : campaignStep env a with
  | error e => rfl
  | ok w =>
    obtain ⟨s, e⟩ := w
    cases hinit : env.initContract with
    | error e2 => rfl
    | ok u =>
      cases hm : env.isMinter with
      | true => rfl
      | false =>
        simp only [Bool.false_eq_true, if_false]
        cases has : env.approxBlockFor s with
        | error e3 => rfl
        | ok sb =>
          cases hae : env.approxBlockFor e with
          | error e4 => simp [isThrown]
          | ok eb =>
            cases hd : env.directResult sb eb with
            | true => simp [hd, isThrown]
            | false => simp [hd, isThrown]

/-- C1 witness: the characterization applied to a fully healthy
environment — nothing fails before the verdict, and the entry point indeed
does not throw. -/
theorem rangeVerify_no_throw_witness :
    isThrown (hasInteractedInTimeRange (stallRangeEnv 0) stallArgs).verdict = false := by
  rw [rangeVerify_throw_characterization (stallRangeEnv 0) stallArgs
    (by decide) (by decide) rfl]
  decide

/-- C3 counterexample: with a ledger whose every awaited call takes 10^9 ms
(the limit of a node that never responds), the cache-miss, non-privileged
`hasInteractedInTimeRange` call still returns `false` — but only after far
more than the 12 s overall deadline plus any small epsilon (here 10^6 ms),
because the minter check, both date-to-block conversions, and the direct
check are awaited before the deadline timer is even created. -/
theorem rangeVerify_exceeds_deadline_on_stalled_ledger :
    MAX_VERIFICATION_TIME + 1000000 <
      (hasInteractedInTimeRange (stallRangeEnv 1000000000) stallArgs).elapsedMs ∧
    (hasInteractedInTimeRange (stallRangeEnv 1000000000) stallArgs).verdict =
      .ok false := by
  constructor <;> decide

/-- C3 (amended): only the activity-scan phase is bounded by the overall
deadline.  The total awaited time of a call is at most the (unbounded)
pre-verdict steps — minter check, two date-to-block conversions, direct
check — plus `MAX_VERIFICATION_TIME` for the raced activity phase; and it
genuinely exceeds every bound `t` when the pre-verdict steps stall for
`t` ms each, so no `deadline + epsilon` return-time guarantee holds. -/
theorem rangeVerify_deadline_scope :
    (∀ (env : RangeEnv) (a : RangeArgs),
      (hasInteractedInTimeRange env a).elapsedMs ≤
        env.tMinter + 2 * env.tApprox + env.tDirect + MAX_VERIFICATION_TIME) ∧
    (∀ t : ℕ,
      t ≤ (hasInteractedInTimeRange (stallRangeEnv t) stallArgs).elapsedMs) := by
  constructor
  · intro env a
    have hmin := min_le_right env.tActivity MAX_VERIFICATION_TIME
    unfold hasInteractedInTimeRange
    repeat' split
    all_goals dsimp only
    all_goals omega
  · intro t
    have hval : (hasInteractedInTimeRange (stallRangeEnv t) stallArgs).elapsedMs =
        t + 2 * t + t + min t MAX_VERIFICATION_TIME := rfl
    omega

/-- C10: with a campaign id, the cache key is assembled from the
caller-supplied dates before the campaign override, while the verification
window is the campaign's configured one; consequently any two calls for the
same address, contract and campaign that pass different explicit dates use
distinct cache keys even though they resolve the same campaign window
(instantiated on a pair differing only in `startMs`). -/
theorem cacheKey_from_caller_dates_window_from_campaign :
    (∀ (env : RangeEnv) (a : RangeArgs) (cid : String) (cs ce : ℕ),
      a.campaignId = some cid →
      env.getCampaign cid = .ok (some (cs, ce)) →
      a.address ≠ "" → a.contractId ≠ "" →
      env.cache (rangeCacheKey a) = none →
      (hasInteractedInTimeRange env a).cacheKeyUsed = some (rangeCacheKey a) ∧
      (hasInteractedInTimeRange env a).resolvedWindowMs = some (cs, ce)) ∧
    (∀ a1 a2 : RangeArgs, a1.contractId = a2.contractId →
      a1.campaignId = a2.campaignId → a1.address = a2.address →
      (a1.startMs ≠ a2.startMs ∨ a1.endMs ≠ a2.endMs) →
      rangeCacheKey a1 ≠ rangeCacheKey a2) ∧
    rangeCacheKey argsCampaignA ≠ rangeCacheKey argsCampaignB ∧
    (hasInteractedInTimeRange envCampaignWindow argsCampaignA).resolvedWindowMs =
      (hasInteractedInTimeRange envCampaignWindow argsCampaignB).resolvedWindowMs := by
  refine ⟨?_, ?_, by decide, by decide⟩
  case refine_2 =>
    intro a1 a2 h1 h2 h3 hne hkey
    have h := rangeCacheKey_inj_dates a1 a2 h1 h2 h3 hkey
    rcases hne with hne | hne
    · exact hne h.1
    · exact hne h.2
  intro env a cid cs ce hcid hcamp ha hc hmiss
  have hguard : ¬ (a.address = "" ∨ a.contractId = "") := by tauto
  have hstep : campaignStep env a = .ok (cs, ce) := by
    unfold campaignStep
    rw [hcid]
    simp [hcamp]
  unfold hasInteractedInTimeRange
  rw [if_neg hguard, hmiss, hstep]
  cases hinit : env.initContract with
  | error e2 => exact ⟨rfl, rfl⟩
  | ok u =>
    cases hm : env.isMinter with
    | true => exact ⟨rfl, rfl⟩
    | false =>
      simp only [Bool.false_eq_true, if_false]
      cases has : env.approxBlockFor cs with
      | error e3 => exact ⟨rfl, rfl⟩
      | ok sb =>
        cases hae : env.approxBlockFor ce with
        | error e4 => exact ⟨rfl, rfl⟩
        | ok eb =>
          cases hd : env.directResult sb eb with
          | false => simp [hd]
          | true => simp [hd]

/-- C10 witness: the general statement applied to the configured campaign
`camp1` with window `[5000, 9000]` and caller dates `[100, 200]`. -/
theorem cacheKey_campaign_witness :
    ((hasInteractedInTimeRange envCampaignWindow argsCampaignA).cacheKeyUsed =
      some (rangeCacheKey argsCampaignA) ∧
    (hasInteractedInTimeRange envCampaignWindow argsCampaignA).resolvedWindowMs =
      some (5000, 9000)) ∧
    rangeCacheKey argsCampaignA ≠ rangeCacheKey argsCampaignB :=
  ⟨cacheKey_from_caller_dates_window_from_campaign.1 envCampaignWindow
      argsCampaignA "camp1" 5000 9000 rfl (by decide) (by decide) (by decide) rfl,
    cacheKey_from_caller_dates_window_from_campaign.2.1 argsCampaignA
      argsCampaignB rfl rfl rfl (Or.inl (by decide))⟩

/-- C2 counterexample: a well-formed request on which the engine fails
internally is answered with status 500 and a body carrying an `error` field
next to `result: 0` — not with status 200 and a body that is exactly
`{"result": 0}`. -/
theorem boundary_internal_failure_is_500 :
    verifyInteraction failEngine goodVerifyReq =
      ⟨500, .resultWithErr 0 "boom"⟩ ∧
    verifyInteraction failEngine goodVerifyReq ≠ ⟨200, .resultOnly 0⟩ := by
  constructor <;> decide

/-- C2 (amended): every response of the two verify endpoints is either a
200 whose body is exactly `{result: 0}` or `{result: 1}`, or a 400/500 whose
body carries `result: 0` together with an `error` message; missing/malformed
address, contract, or dates yield 400; an engine failure on a well-formed
non-campaign request yields 500 with `{result: 0, error: message}` (and, in
the campaign branch of the range endpoint, 400). -/
theorem boundary_response_taxonomy :
    (∀ (engine : String → String → Option String → Except String Bool)
      (req : VerifyReq), canonicalResp (verifyInteraction engine req)) ∧
    (∀ (env : RangeBoundaryEnv) (req : RangeReq),
      canonicalResp (verifyInteractionInTimeRange env req)) ∧
    (∀ (engine : String → String → Option String → Except String Bool)
      (req : VerifyReq),
      req.address = "" ∨ req.contract = none ∨ isValidAddress req.address = false →
      (verifyInteraction engine req).status = 400) ∧
    (∀ (env : RangeBoundaryEnv) (req : RangeReq) (contractId sRaw : String),
      req.address ≠ "" → req.contract = some contractId →
      isValidAddress req.address = true → req.campaign = none →
      req.startDateRaw = some sRaw → env.parseDate sRaw = none →
      (verifyInteractionInTimeRange env req).status = 400) ∧
    (∀ (engine : String → String → Option String → Except String Bool)
      (req : VerifyReq) (contractId m : String),
      req.contract = some contractId → isValidAddress req.address = true →
      req.address ≠ "" →
      engine (lowerStr req.address) contractId req.campaign = .error m →
      verifyInteraction engine req = ⟨500, .resultWithErr 0 m⟩) := by
  refine ⟨?_, ?_, ?_, ?_, ?_⟩
  · intro engine req
    unfold verifyInteraction canonicalResp
    repeat' split
    all_goals simp
  · intro env req
    unfold verifyInteractionInTimeRange canonicalResp
    dsimp only
    repeat' split
    all_goals simp
  · intro engine req h
    rcases h with h | h | h
    · simp [verifyInteraction, h]
    · unfold verifyInteraction
      split
      · rfl
      · rw [h]
    · unfold verifyInteraction
      split
      · rfl
      · cases hc : req.contract with
        | none => rfl
        | some contractId => simp [h]
  · intro env req contractId sRaw ha hc hv hcamp hs hparse
    cases he : req.endDateRaw <;>
      simp [verifyInteractionInTimeRange, ha, hc, hv, hcamp, hs, hparse, he]
  · intro engine req contractId m hc hv ha hengine
    simp [verifyInteraction, ha, hc, hv, hengine]

/-- C2 witness: the 500-on-engine-failure clause applied to the concrete
failing engine and a well-formed request. -/
theorem boundary_taxonomy_witness :
    verifyInteraction failEngine goodVerifyReq =
      ⟨500, .resultWithErr 0 "boom"⟩ ∧ canonicalResp (verifyInteraction failEngine goodVerifyReq) :=
  ⟨boundary_response_taxonomy.2.2.2.2 failEngine goodVerifyReq "contract1" "boom"
      rfl (by decide) (by decide) rfl,
    boundary_response_taxonomy.1 failEngine goodVerifyReq⟩

end QuestVerification
